import Mathlib

/-!
Shallow embedding of the node-opfs core (an OPFS emulation over the host
filesystem) for checking its natural-language specification.

The embedding covers:
* the error surface of the TypeScript code (`TypeError`, `DOMException` with a
  `name`, plain `Error`, and Node system errors carrying a string `code`);
* `FileSystemDirectoryHandle.getFileHandle` / `getDirectoryHandle` /
  `removeEntry` / `resolve` / `keys` / `values` / `entries`;
* `FileSystemFileHandle.createWritable` and the deferred-open mode of
  `FileSystemWritableFileStream._init`;
* the `FileSystemWritableFileStream` state machine (`write`, `seek`,
  `truncate`, `close`) over an explicit file-content state;
* the `FileSystemSyncAccessHandle` state machine;
* `FileSystemHandle.isSameEntry`.

Asynchronous filesystem calls are embedded by passing the relevant snapshot of
the filesystem (the stat result, the directory listing, the file bytes) as an
explicit argument, and JavaScript exceptions are embedded as `Except` values.
-/

namespace NodeOpfs

/-- Decidable equality for embedded call results. -/
instance {e a : Type} [DecidableEq e] [DecidableEq a] : DecidableEq (Except e a) := fun x y =>
  match x, y with
  | .error e1, .error e2 =>
      if h : e1 = e2 then .isTrue (by rw [h]) else .isFalse (fun hc => h (Except.error.inj hc))
  | .ok x1, .ok y1 =>
      if h : x1 = y1 then .isTrue (by rw [h]) else .isFalse (fun hc => h (Except.ok.inj hc))
  | .error _, .ok _ => .isFalse (fun hc => Except.noConfusion hc)
  | .ok _, .error _ => .isFalse (fun hc => Except.noConfusion hc)

/-- The kind of entry the host filesystem reports for a path
(`stats.isFile()` / `stats.isDirectory()` / anything else). -/
inductive EntryType where
  | file
  | directory
  | other
deriving DecidableEq, Repr

/-- JavaScript error values thrown by the code: `TypeError`, `DOMException`
(with its `name` string), plain `Error`, and Node system errors, which carry a
string `code` such as `"ENOENT"`. -/
inductive JsError where
  | typeError (msg : String)
  | domException (msg : String) (errName : String)
  | jsError (msg : String)
  | systemError (code : String)
deriving DecidableEq, Repr

/-- The JavaScript read of `error.code` used in the catch blocks: only Node
system errors carry a string `code`; for `TypeError`, `DOMException` and plain
`Error` the comparison `error.code === 'ENOENT'` is false. -/
def errCode : JsError → Option String
  | .systemError c => some c
  | _ => none

/-- The `kind` discriminator of a `FileSystemHandle`. -/
inductive HandleKind where
  | file
  | directory
deriving DecidableEq, Repr

/-- A `FileSystemHandle`: immutable `kind`, `name` and absolute `_path`. -/
structure FSHandle where
  kind : HandleKind
  name : String
  path : String
deriving DecidableEq, Repr

/-- Embedding of `path.join(this._path, name)` for the normalized absolute
paths the library constructs. -/
def joinPath (dirPath entryName : String) : String :=
  dirPath ++ "/" ++ entryName

/-- Embedding of `FileSystemDirectoryHandle.getFileHandle(name, options)`.
`statResult` is the snapshot the single `fs.stat(filePath)` call reports:
`none` when it rejects with `ENOENT`, otherwise the entry's type.  The `try`
body either throws (stat rejection, or the `TypeError` thrown when the entry
is not a file) or returns a file handle; the `catch` block creates the file
when the error code is `ENOENT` and `create` is set, and otherwise throws a
`NotFoundError` `DOMException` regardless of which error was caught. -/
def getFileHandle (dirPath entryName : String) (statResult : Option EntryType)
    (create : Bool) : Except JsError FSHandle :=
  let filePath := joinPath dirPath entryName
  let tryResult : Except JsError FSHandle :=
    match statResult with
    | none => .error (.systemError "ENOENT")
    | some t =>
        if t ≠ .file then
          .error (.typeError "is not a file")
        else
          .ok { kind := .file, name := entryName, path := filePath }
  match tryResult with
  | .ok h => .ok h
  | .error e =>
      if errCode e = some "ENOENT" ∧ create = true then
        .ok { kind := .file, name := entryName, path := filePath }
      else
        .error (.domException "File not found" "NotFoundError")

/-- Embedding of `FileSystemDirectoryHandle.getDirectoryHandle(name, options)`.
`statResult` is the snapshot the first `fs.stat(dirPath)` reports (`none` for
an `ENOENT` rejection).  `createSnapshot` is the entry's state during the
create phase: `fs.mkdir(dirPath, {recursive:false})` succeeds when it is
`none`, and rejects with `EEXIST` when it is `some t`, in which case the code
re-stats and requires a directory.  The snapshots are distinct arguments
because a concurrent actor may change the entry between the two phases. -/
def getDirectoryHandle (dirPath entryName : String) (statResult : Option EntryType)
    (create : Bool) (createSnapshot : Option EntryType) : Except JsError FSHandle :=
  let subPath := joinPath dirPath entryName
  let tryResult : Except JsError FSHandle :=
    match statResult with
    | none => .error (.systemError "ENOENT")
    | some t =>
        if t ≠ .directory then
          .error (.typeError "is not a directory")
        else
          .ok { kind := .directory, name := entryName, path := subPath }
  match tryResult with
  | .ok h => .ok h
  | .error e =>
      if create then
        match createSnapshot with
        | none => .ok { kind := .directory, name := entryName, path := subPath }
        | some t2 =>
            if t2 ≠ .directory then
              .error (.typeError "is not a directory")
            else
              .ok { kind := .directory, name := entryName, path := subPath }
      else if errCode e = some "ENOENT" then
        .error (.domException "Directory not found" "NotFoundError")
      else
        .error e

/-- A node of the on-disk tree: a file with its bytes, a directory with its
children listed as (name, node) pairs, or an entry of another type. -/
inductive FSNode where
  | file (content : List Nat)
  | dir (children : List (String × FSNode))
  | other

/-- Embedding of `stats.isDirectory()` for a looked-up node. -/
def isDirNode : FSNode → Bool
  | .dir _ => true
  | _ => false

/-- Embedding of `fs.readdir(entryPath)` on a looked-up node (the names of a
directory's children; non-directories have none). -/
def childrenOf : FSNode → List (String × FSNode)
  | .dir cs => cs
  | _ => []

/-- Embedding of `fs.stat(path.join(this._path, name))` against a parent
directory's listing: the node of the first child with the given name. -/
def lookupNode (children : List (String × FSNode)) (entryName : String) : Option FSNode :=
  (children.find? (fun p => p.1 == entryName)).map (·.2)

/-- The effect of `fs.rm`/`fs.rmdir`/`fs.unlink` on the parent listing:
the entry with the given name is removed (with its whole subtree, which the
node carries). -/
def eraseEntry (children : List (String × FSNode)) (entryName : String) :
    List (String × FSNode) :=
  children.eraseP (fun p => p.1 == entryName)

/-- The `try` body of `FileSystemDirectoryHandle.removeEntry(name, options)`:
stat the entry (`ENOENT` if absent); directories are removed recursively when
`recursive` is set, and otherwise only when `fs.readdir` shows zero children,
else an `InvalidModificationError` `DOMException` is thrown; non-directories
are unlinked unconditionally. -/
def removeEntryTry (children : List (String × FSNode)) (entryName : String)
    (recursive : Bool) : Except JsError (List (String × FSNode)) :=
  match lookupNode children entryName with
  | none => .error (.systemError "ENOENT")
  | some node =>
      if isDirNode node then
        if recursive then
          .ok (eraseEntry children entryName)
        else if (childrenOf node).length > 0 then
          .error (.domException "Directory not empty" "InvalidModificationError")
        else
          .ok (eraseEntry children entryName)
      else
        .ok (eraseEntry children entryName)

/-- Embedding of `removeEntry`: the `catch` block maps an `ENOENT` code to a
`NotFoundError` `DOMException` and re-throws every other error unchanged. -/
def removeEntry (children : List (String × FSNode)) (entryName : String)
    (recursive : Bool) : Except JsError (List (String × FSNode)) :=
  match removeEntryTry children entryName recursive with
  | .ok r => .ok r
  | .error e =>
      if errCode e = some "ENOENT" then
        .error (.domException "Entry not found" "NotFoundError")
      else
        .error e

/-- JavaScript strings, as the `_path` fields hold them, embedded as lists of
characters so that `startsWith`, `split` and `path.relative` can be stated
over their list structure. -/
abbrev JStr := List Char

/-- The platform path separator `path.sep` (POSIX). -/
def sepChar : Char := '/'

/-- The path segments of a normalized absolute path: split on the separator
and drop empty pieces (the piece before the leading separator).  This is the
segment view `path.relative` works with for the normalized absolute paths the
library constructs via `path.join`. -/
def pathSegs (p : JStr) : List JStr :=
  (p.splitOn sepChar).filter (fun s => s ≠ [])

/-- Drop the longest common leading run of two segment lists, returning the
two remainders (the core of `path.relative`). -/
def dropCommon : List JStr → List JStr → List JStr × List JStr
  | a :: as, b :: bs => if a = b then dropCommon as bs else (a :: as, b :: bs)
  | as, bs => (as, bs)

/-- Embedding of node `path.relative(from, to)` on normalized absolute paths:
one `..` segment per remaining `from` segment, then the remaining `to`
segments, joined with the separator. -/
def pathRelative (fromPath toPath : JStr) : JStr :=
  let pair := dropCommon (pathSegs fromPath) (pathSegs toPath)
  List.intercalate [sepChar] (List.replicate pair.1.length ['.', '.'] ++ pair.2)

/-- Embedding of `FileSystemDirectoryHandle.resolve(possibleDescendant)`:
a null result when the candidate's path does not `startsWith` this handle's
path (a string-prefix test), an empty list when `path.relative` is empty, and
otherwise the relative path split on the separator. -/
def resolve (dirPath candidatePath : JStr) : Option (List JStr) :=
  if List.isPrefixOf dirPath candidatePath = false then none
  else
    let relativePath := pathRelative dirPath candidatePath
    if relativePath = [] then some []
    else some (relativePath.splitOn sepChar)

/-- The open mode `FileSystemWritableFileStream._init` passes to
`fsPromises.open`: `r+` when keeping existing data, else `w`. -/
inductive OpenMode where
  | w
  | rplus
deriving DecidableEq, Repr

/-- The mode chosen by `_init` from the stored `_keepExistingData` flag. -/
def initOpenMode (keepExistingData : Bool) : OpenMode :=
  if keepExistingData then .rplus else .w

/-- Whether a node open mode truncates the file at open time: `w` does,
`r+` preserves existing bytes. -/
def modeTruncatesAtOpen : OpenMode → Bool
  | .w => true
  | .rplus => false

/-- The effect of `fsPromises.open(path, mode)` on the file's bytes. -/
def openEffect (mode : OpenMode) (content : List Nat) : List Nat :=
  if modeTruncatesAtOpen mode then [] else content

/-- Embedding of `FileSystemFileHandle.createWritable(options)`: when
`keepExistingData` is false the factory runs `fs.writeFile(path, '')` before
returning, emptying the file; the pair is the file's bytes when the factory
returns and the flag stored in the constructed stream. -/
def createWritable (content : List Nat) (keepExistingData : Bool) :
    List Nat × Bool :=
  (if keepExistingData then content else [], keepExistingData)

/-- State of a `FileSystemWritableFileStream` together with the bytes of the
file its descriptor refers to: `content` is the file, `position` the
`_position` cursor, `closed` the `_closed` flag, and `fdOpen` whether `_fd`
is non-null. -/
structure WStream where
  content : List Nat
  position : Nat
  closed : Bool
  fdOpen : Bool
deriving DecidableEq, Repr

/-- Embedding of `_ensureOpen` (after the deferred open has resolved):
throws `Error('Stream is closed')` when `_closed` is set or `_fd` is null. -/
def ensureOpen (s : WStream) : Except JsError Unit :=
  if s.closed = true ∨ s.fdOpen = false then .error (.jsError "Stream is closed")
  else .ok ()

/-- The effect of `fd.write(buffer, 0, buffer.length, pos)` on file bytes for
a regular file: bytes `[pos, pos + buffer.length)` become the buffer, a gap
between the old end of file and `pos` is zero-filled, everything else is kept;
the call reports `buffer.length` bytes written. -/
def writeAt (content : List Nat) (pos : Nat) (buf : List Nat) : List Nat :=
  let padded := content ++ List.replicate (pos - content.length) 0
  padded.take pos ++ buf ++ padded.drop (pos + buf.length)

/-- The effect of `fd.truncate(size)`: shrink to `size`, or zero-fill up to
`size` when growing. -/
def truncateTo (content : List Nat) (size : Nat) : List Nat :=
  content.take size ++ List.replicate (size - content.length) 0

/-- The argument of `FileSystemWritableFileStream.write`: raw bytes/text, or
one of the three tagged forms, or an object with an unsupported tag. -/
inductive WriteArg where
  | raw (buf : List Nat)
  | writeTag (position : Option Nat) (buf : List Nat)
  | seekTag (position : Option Nat)
  | truncateTag (size : Option Nat)
  | otherTag
deriving DecidableEq, Repr

/-- Embedding of `FileSystemWritableFileStream.write(data)`: `_ensureOpen`
first; a `seek` tag sets the cursor (defaulting to 0) with no I/O; a
`truncate` tag truncates to `size ?? 0`; an unknown tag throws; a `write` tag
or raw data writes the buffer at `position ?? this._position`, and advances
the cursor by the bytes written exactly when `position` was omitted. -/
def streamWrite (s : WStream) (arg : WriteArg) : Except JsError WStream :=
  match ensureOpen s with
  | .error e => .error e
  | .ok _ =>
      match arg with
      | .seekTag p => .ok { s with position := p.getD 0 }
      | .truncateTag sz => .ok { s with content := truncateTo s.content (sz.getD 0) }
      | .otherTag => .error (.jsError "Unsupported write type")
      | .writeTag pos buf =>
          let writePosition := pos.getD s.position
          let bytesWritten := buf.length
          .ok { s with
            content := writeAt s.content writePosition buf
            position := if pos = none then s.position + bytesWritten else s.position }
      | .raw buf =>
          let bytesWritten := buf.length
          .ok { s with
            content := writeAt s.content s.position buf
            position := s.position + bytesWritten }

/-- Embedding of `FileSystemWritableFileStream.seek(position)`: the method
body only assigns `this._position = position` — it performs no closed check
and no I/O. -/
def streamSeek (s : WStream) (p : Nat) : Except JsError WStream :=
  .ok { s with position := p }

/-- Embedding of `FileSystemWritableFileStream.truncate(size)`. -/
def streamTruncate (s : WStream) (size : Nat) : Except JsError WStream :=
  match ensureOpen s with
  | .error e => .error e
  | .ok _ => .ok { s with content := truncateTo s.content size }

/-- Embedding of `FileSystemWritableFileStream.close()`: returns at once when
already closed; otherwise syncs, releases the descriptor and marks closed. -/
def streamClose (s : WStream) : Except JsError WStream :=
  if s.closed = true then .ok s
  else .ok { s with fdOpen := false, closed := true }

/-- The stream produced for a file whose bytes are `fileContent` once its
deferred `_init` open has completed: the open mode's effect applies to the
content, the cursor starts at 0, and the descriptor is live. -/
def initStream (fileContent : List Nat) (keepExistingData : Bool) : WStream :=
  { content := openEffect (initOpenMode keepExistingData) fileContent
    position := 0
    closed := false
    fdOpen := true }

/-- A stream freshly created by `createWritable` with `keepExistingData`
false over a file holding `priorContent`, after its deferred open. -/
def freshStream (priorContent : List Nat) : WStream :=
  initStream (createWritable priorContent false).1 false

/-- Driver for a sequence of position-omitted `write(data)` calls issued
sequentially (each awaiting the previous) against one stream. -/
def runWrites (s : WStream) (bufs : List (List Nat)) : Except JsError WStream :=
  match bufs with
  | [] => .ok s
  | b :: rest =>
      match streamWrite s (.raw b) with
      | .ok s' => runWrites s' rest
      | .error e => .error e

/-- Embedding of `FileSystemFileHandle.getFile()` restricted to the byte
content it snapshots: `fs.readFile` of the file's bytes. -/
def getFileBytes (fileContent : List Nat) : List Nat :=
  fileContent

/-- The full pipeline of claim C7: a fresh writable stream (default options),
sequential raw writes, `close()`, then reading the file back. -/
def writeThenReadBack (priorContent : List Nat) (bufs : List (List Nat)) :
    Except JsError (List Nat) :=
  match runWrites (freshStream priorContent) bufs with
  | .error e => .error e
  | .ok s =>
      match streamClose s with
      | .error e => .error e
      | .ok s' => .ok (getFileBytes s'.content)

/-- State of a `FileSystemSyncAccessHandle` together with the bytes of the
file behind its descriptor: `closed` is `_closed`, `cursor` the descriptor's
implicit file position used when `at` is omitted. -/
structure SyncAccessHandle where
  closed : Bool
  content : List Nat
  cursor : Nat
deriving DecidableEq, Repr

/-- Embedding of `FileSystemSyncAccessHandle.read(buffer, {at})`: fails when
closed; otherwise `fsSync.readSync` reads up to the buffer's length from
`at ?? <descriptor cursor>`, returns the bytes actually read (0 at or past
end-of-file), and advances the descriptor cursor only when `at` was omitted. -/
def sahRead (h : SyncAccessHandle) (bufLen : Nat) (atPos : Option Nat) :
    Except JsError (SyncAccessHandle × Nat) :=
  if h.closed = true then .error (.jsError "Access handle is closed")
  else
    let pos := atPos.getD h.cursor
    let bytesRead := min bufLen (h.content.length - pos)
    .ok ({ h with cursor := if atPos = none then h.cursor + bytesRead else h.cursor },
         bytesRead)

/-- Embedding of `FileSystemSyncAccessHandle.write(buffer, {at})`. -/
def sahWrite (h : SyncAccessHandle) (buf : List Nat) (atPos : Option Nat) :
    Except JsError (SyncAccessHandle × Nat) :=
  if h.closed = true then .error (.jsError "Access handle is closed")
  else
    let pos := atPos.getD h.cursor
    .ok ({ h with
            content := writeAt h.content pos buf
            cursor := if atPos = none then h.cursor + buf.length else h.cursor },
         buf.length)

/-- Embedding of `FileSystemSyncAccessHandle.truncate(newSize)`. -/
def sahTruncate (h : SyncAccessHandle) (newSize : Nat) :
    Except JsError SyncAccessHandle :=
  if h.closed = true then .error (.jsError "Access handle is closed")
  else .ok { h with content := truncateTo h.content newSize }

/-- Embedding of `FileSystemSyncAccessHandle.getSize()`. -/
def sahGetSize (h : SyncAccessHandle) : Except JsError Nat :=
  if h.closed = true then .error (.jsError "Access handle is closed")
  else .ok h.content.length

/-- Embedding of `FileSystemSyncAccessHandle.flush()`: `fd.sync()` has no
effect on the byte content. -/
def sahFlush (h : SyncAccessHandle) : Except JsError Unit :=
  if h.closed = true then .error (.jsError "Access handle is closed")
  else .ok ()

/-- Embedding of `FileSystemSyncAccessHandle.close()`: returns at once when
already closed, else closes the descriptor and sets `_closed`. -/
def sahClose (h : SyncAccessHandle) : Except JsError SyncAccessHandle :=
  if h.closed = true then .ok h
  else .ok { h with closed := true }

/-- Embedding of `FileSystemHandle.isSameEntry(other)`: false on a `kind`
mismatch; otherwise both paths are statted — `statOracle` maps a path to the
`(dev, ino)` identity the host reports, or `none` when `fs.stat` rejects —
and the identities are compared; the `catch` turns any stat rejection into
false, so the method always returns a boolean and never throws. -/
def isSameEntry (statOracle : String → Option (Nat × Nat)) (a b : FSHandle) : Bool :=
  if a.kind ≠ b.kind then false
  else
    match statOracle a.path, statOracle b.path with
    | some s1, some s2 => decide (s1.2 = s2.2) && decide (s1.1 = s2.1)
    | _, _ => false

/-- One entry of an `fs.readdir(..., { withFileTypes: true })` listing. -/
structure Dirent where
  name : String
  typ : EntryType
deriving DecidableEq, Repr

/-- Embedding of `keys()`: one point-in-time `fs.readdir` listing, every
entry's name yielded in order. -/
def keysOf (listing : List Dirent) : List String :=
  listing.map (·.name)

/-- The handle `values()` constructs for one listing entry: a file handle for
a file, a directory handle for a directory, nothing for any other type. -/
def handleFor (dirPath : String) (e : Dirent) : Option FSHandle :=
  match e.typ with
  | .file => some { kind := .file, name := e.name, path := joinPath dirPath e.name }
  | .directory => some { kind := .directory, name := e.name, path := joinPath dirPath e.name }
  | .other => none

/-- Embedding of `values()`: handles for the file and directory entries of one
listing, in order, skipping entries of any other type. -/
def valuesOf (dirPath : String) (listing : List Dirent) : List FSHandle :=
  listing.filterMap (handleFor dirPath)

/-- Embedding of `entries()`: name-handle pairs, with the same skipping as
`values()`. -/
def entriesOf (dirPath : String) (listing : List Dirent) : List (String × FSHandle) :=
  listing.filterMap (fun e => (handleFor dirPath e).map (fun h => (e.name, h)))

/-- A closed writable stream as `close()` leaves it, over an empty file. -/
def closedStreamEx : WStream :=
  { content := [], position := 0, closed := true, fdOpen := false }

/-- A closed sync access handle as `close()` leaves it. -/
def closedSahEx : SyncAccessHandle :=
  { closed := true, content := [], cursor := 0 }

/-- A host on which every `fs.stat` rejects. -/
def statOracleEx : String → Option (Nat × Nat) :=
  fun _ => none

theorem lookupNode_eq_none_of_not_mem (l : List (String × FSNode)) (n : String)
    (h : n ∉ l.map Prod.fst) : lookupNode l n = none := by
  induction l with
  | nil => rfl
  | cons hd tl ih =>
      simp only [List.map_cons, List.mem_cons, not_or] at h
      have hne : (hd.1 == n) = false := by
        simp [beq_eq_false_iff_ne]
        exact fun he => h.1 he.symm
      simp only [lookupNode, List.find?_cons, hne]
      exact ih h.2

theorem lookupNode_eraseEntry (l : List (String × FSNode)) (n : String)
    (hnd : (l.map Prod.fst).Nodup) :
    lookupNode (eraseEntry l n) n = none := by
  induction l with
  | nil => rfl
  | cons hd tl ih =>
      simp only [List.map_cons, List.nodup_cons] at hnd
      by_cases h : hd.1 = n
      · have hb : (hd.1 == n) = true := by simp [h]
        simp only [eraseEntry, List.eraseP_cons, hb, cond_true]
        exact lookupNode_eq_none_of_not_mem tl n (h ▸ hnd.1)
      · have hb : (hd.1 == n) = false := by simp [h]
        simp only [eraseEntry, List.eraseP_cons, hb, cond_false]
        have hne : (hd.1 == n) = false := hb
        simp only [lookupNode, List.find?_cons, hne]
        exact ih hnd.2

/-- Any successful `removeEntry` returns the parent listing with the named
entry erased: every `.ok` branch of the `try` body is the erasure. -/
theorem removeEntry_ok_eq (children : List (String × FSNode)) (entryName : String)
    (recursive : Bool) (result : List (String × FSNode))
    (h : removeEntry children entryName recursive = .ok result) :
    result = eraseEntry children entryName := by
  unfold removeEntry removeEntryTry at h
  cases hcase : lookupNode children entryName with
  | none => rw [hcase] at h; simp [errCode] at h
  | some node =>
      rw [hcase] at h
      cases node with
      | file c => simp [isDirNode] at h; exact h.symm
      | other => simp [isDirNode] at h; exact h.symm
      | dir cs =>
          cases recursive with
          | true => simp [isDirNode] at h; exact h.symm
          | false =>
              by_cases hlen : (childrenOf (FSNode.dir cs)).length > 0
              · simp [isDirNode, hlen, errCode] at h
              · simp [isDirNode, hlen] at h; exact h.symm

/-- C1: the claim is violated by the code.  When the entry at the joined path
is a directory, `getFileHandle` throws `TypeError` inside its `try` block, the
`catch` block's `error.code === 'ENOENT'` test fails (a `TypeError` has no
`code`), and the error is replaced by the Not-Found `DOMException` — for
either value of `create`.  The call therefore fails with Not-Found, not with
the type-mismatch error the claim (and the spec) require. -/
theorem C1_getFileHandle_on_directory :
    ∀ create : Bool, getFileHandle "/root" "sub" (some .directory) create
      = .error (.domException "File not found" "NotFoundError") := by
  intro create
  cases create <;> rfl

/-- C6: `getDirectoryHandle` with `create` tolerates a create conflict.  If
the create phase finds the entry already existing (mkdir reports `EEXIST`)
and the entry is in fact a directory, the call succeeds for every outcome of
the first stat; if the already-existing entry is not a directory, the call
fails with the type-mismatch `TypeError`. -/
theorem C6_getDirectoryHandle_create_race (dirPath entryName : String)
    (statResult : Option EntryType) :
    (getDirectoryHandle dirPath entryName statResult true (some .directory)
      = .ok { kind := .directory, name := entryName, path := joinPath dirPath entryName }) ∧
    (∀ t2 : EntryType, statResult ≠ some .directory → t2 ≠ .directory →
      getDirectoryHandle dirPath entryName statResult true (some t2)
        = .error (.typeError "is not a directory")) := by
  constructor
  · rcases statResult with _ | t
    · rfl
    · cases t <;> rfl
  · intro t2 h1 h2
    rcases statResult with _ | t
    · cases t2 <;> simp_all [getDirectoryHandle, errCode]
    · cases t <;> cases t2 <;> simp_all [getDirectoryHandle, errCode]

/-- Witness for C6 at a concrete input: the first stat sees a file, the
create phase hits `EEXIST` on a file, and the call fails with `TypeError`. -/
theorem C6_witness :
    getDirectoryHandle "/root" "sub" (some .file) true (some .file)
      = .error (.typeError "is not a directory") :=
  (C6_getDirectoryHandle_create_race "/root" "sub" (some .file)).2 .file
    (by decide) (by decide)

/-- C5: `removeEntry` fails with the Not-Found `DOMException` when no entry
of that name exists (for either `recursive`); without `recursive` it fails
with the `InvalidModificationError` `DOMException` on a non-empty directory
and removes nothing (the `try` body only listed the directory before
throwing); it removes an empty directory or a file; with `recursive` it
removes a directory together with the whole subtree its node carries; and
after any successful removal a lookup of the name finds nothing. -/
theorem C5_removeEntry_spec (children : List (String × FSNode)) (entryName : String)
    (hnd : (children.map Prod.fst).Nodup) :
    (∀ recursive : Bool, lookupNode children entryName = none →
        removeEntry children entryName recursive
          = .error (.domException "Entry not found" "NotFoundError")) ∧
    (∀ cs, lookupNode children entryName = some (.dir cs) → cs ≠ [] →
        removeEntry children entryName false
          = .error (.domException "Directory not empty" "InvalidModificationError")) ∧
    (∀ cs, lookupNode children entryName = some (.dir cs) →
        removeEntry children entryName true = .ok (eraseEntry children entryName)) ∧
    (lookupNode children entryName = some (.dir []) →
        removeEntry children entryName false = .ok (eraseEntry children entryName)) ∧
    (∀ content recursive, lookupNode children entryName = some (.file content) →
        removeEntry children entryName recursive = .ok (eraseEntry children entryName)) ∧
    (∀ result, (removeEntry children entryName true = .ok result ∨
                removeEntry children entryName false = .ok result) →
        lookupNode result entryName = none) := by
  refine ⟨?_, ?_, ?_, ?_, ?_, ?_⟩
  · intro recursive h
    simp [removeEntry, removeEntryTry, h, errCode]
  · intro cs h hne
    have hlen : (childrenOf (FSNode.dir cs)).length > 0 := by
      cases cs with
      | nil => exact absurd rfl hne
      | cons a l => simp [childrenOf]
    simp [removeEntry, removeEntryTry, h, isDirNode, hlen, errCode]
  · intro cs h
    simp [removeEntry, removeEntryTry, h, isDirNode]
  · intro h
    simp [removeEntry, removeEntryTry, h, isDirNode, childrenOf]
  · intro content recursive h
    simp [removeEntry, removeEntryTry, h, isDirNode]
  · intro result hok
    have hres : result = eraseEntry children entryName := by
      rcases hok with hok | hok
      · exact removeEntry_ok_eq children entryName true result hok
      · exact removeEntry_ok_eq children entryName false result hok
    rw [hres]
    exact lookupNode_eraseEntry children entryName hnd

/-- Witness for C5 at a concrete input: removing a populated directory
without `recursive` fails with the non-empty error. -/
theorem C5_witness :
    removeEntry [("a", FSNode.dir [("x", FSNode.file [])])] "a" false
      = .error (.domException "Directory not empty" "InvalidModificationError") :=
  ((C5_removeEntry_spec [("a", FSNode.dir [("x", FSNode.file [])])] "a"
      (by simp)).2.1) [("x", FSNode.file [])] rfl (by simp)

/-- C2 counterexample: the claim is violated by the code for the stream's
`seek` method, whose body only assigns the cursor and performs no closed
check: on a stream whose `close()` has completed, `seek(5)` succeeds instead
of failing with a closed-handle error. -/
theorem C2_counterexample :
    streamSeek closedStreamEx 5
      = .ok { content := [], position := 5, closed := true, fdOpen := false } := rfl

/-- C2 amended: after `close()` has completed once, `write` (with any
argument) and `truncate` on the Writable Stream, and `read`, `write`,
`truncate`, `getSize`, `flush` on the Sync Access Handle, all fail with the
closed-handle error, and `close()` on either object never fails; the stream's
`seek`, however, performs no closed check and succeeds, merely setting the
cursor. -/
theorem C2_amended_closed_behavior (s : WStream) (h : SyncAccessHandle)
    (hs : s.closed = true) (hh : h.closed = true) :
    (∀ arg, streamWrite s arg = .error (.jsError "Stream is closed")) ∧
    (∀ size, streamTruncate s size = .error (.jsError "Stream is closed")) ∧
    streamClose s = .ok s ∧
    (∀ p, streamSeek s p = .ok { s with position := p }) ∧
    (∀ bufLen atPos, sahRead h bufLen atPos
      = .error (.jsError "Access handle is closed")) ∧
    (∀ buf atPos, sahWrite h buf atPos
      = .error (.jsError "Access handle is closed")) ∧
    (∀ size, sahTruncate h size = .error (.jsError "Access handle is closed")) ∧
    sahGetSize h = .error (.jsError "Access handle is closed") ∧
    sahFlush h = .error (.jsError "Access handle is closed") ∧
    sahClose h = .ok h := by
  refine ⟨?_, ?_, ?_, ?_, ?_, ?_, ?_, ?_, ?_, ?_⟩ <;>
    simp [streamWrite, streamTruncate, streamClose, streamSeek, ensureOpen,
      sahRead, sahWrite, sahTruncate, sahGetSize, sahFlush, sahClose, hs, hh]

/-- Witness for C2 at concrete closed objects. -/
theorem C2_witness :
    streamWrite closedStreamEx (.raw [1]) = .error (.jsError "Stream is closed") ∧
    sahGetSize closedSahEx = .error (.jsError "Access handle is closed") ∧
    sahClose closedSahEx = .ok closedSahEx :=
  ⟨(C2_amended_closed_behavior closedStreamEx closedSahEx rfl rfl).1 (.raw [1]),
   (C2_amended_closed_behavior closedStreamEx closedSahEx rfl rfl).2.2.2.2.2.2.2.1,
   (C2_amended_closed_behavior closedStreamEx closedSahEx rfl rfl).2.2.2.2.2.2.2.2.2⟩

/-- C3 counterexample: the claim is violated by the code.  With
`keepExistingData` false, the stream's deferred `_init` open uses mode `w`,
which truncates at open time — not a mode that "does not truncate again at
open time" as the claim states. -/
theorem C3_counterexample :
    modeTruncatesAtOpen (initOpenMode false) = true := rfl

/-- C3 amended: with `keepExistingData` false (or omitted) the target file is
truncated to zero length before the factory returns, and the stream's
deferred open then uses the truncating mode `w` (truncating the already-empty
file again, harmlessly in the absence of interleaving); with
`keepExistingData` true no truncation occurs at any point and the deferred
open uses mode `r+`, which preserves existing bytes. -/
theorem C3_amended_createWritable (content : List Nat) :
    (createWritable content false).1 = [] ∧
    initOpenMode false = .w ∧
    modeTruncatesAtOpen (initOpenMode false) = true ∧
    initStream (createWritable content false).1 false
      = { content := [], position := 0, closed := false, fdOpen := true } ∧
    (createWritable content true).1 = content ∧
    initOpenMode true = .rplus ∧
    modeTruncatesAtOpen (initOpenMode true) = false ∧
    initStream (createWritable content true).1 true
      = { content := content, position := 0, closed := false, fdOpen := true } :=
  ⟨rfl, rfl, rfl, rfl, rfl, rfl, rfl, rfl⟩

/-- C9: `isSameEntry` returns true only when the kinds agree and both stats
succeed with the same device and inode; whenever either stat fails it returns
false.  The embedded method is a total boolean function: the `catch` block
converts every stat rejection into false, so no exception escapes. -/
theorem C9_isSameEntry_sound (statOracle : String → Option (Nat × Nat))
    (a b : FSHandle) :
    (isSameEntry statOracle a b = true →
      a.kind = b.kind ∧ ∃ dev ino, statOracle a.path = some (dev, ino) ∧
        statOracle b.path = some (dev, ino)) ∧
    ((statOracle a.path = none ∨ statOracle b.path = none) →
      isSameEntry statOracle a b = false) := by
  constructor
  · intro h
    unfold isSameEntry at h
    by_cases hk : a.kind = b.kind
    · rw [if_neg (by simp [hk])] at h
      refine ⟨hk, ?_⟩
      cases ha : statOracle a.path with
      | none => rw [ha] at h; simp at h
      | some s1 =>
          cases hb : statOracle b.path with
          | none => rw [ha, hb] at h; simp at h
          | some s2 =>
              rw [ha, hb] at h
              simp only [Bool.and_eq_true, decide_eq_true_eq] at h
              obtain ⟨hi, hd⟩ := h
              refine ⟨s1.1, s1.2, by simp, ?_⟩
              cases s1; cases s2
              simp only at hi hd
              simp [hi, hd]
    · rw [if_pos (by simp [hk])] at h
      exact absurd h (by simp)
  · intro hor
    unfold isSameEntry
    by_cases hk : a.kind = b.kind
    · rw [if_neg (by simp [hk])]
      rcases hor with hn | hn
      · rw [hn]
      · rw [hn]
        cases statOracle a.path <;> rfl
    · rw [if_pos (by simp [hk])]

/-- Witness for C9 at a concrete input: stat of the first path fails, so the
call returns false. -/
theorem C9_witness :
    isSameEntry statOracleEx { kind := .file, name := "a", path := "/a" }
      { kind := .file, name := "b", path := "/b" } = false :=
  (C9_isSameEntry_sound statOracleEx
      { kind := .file, name := "a", path := "/a" }
      { kind := .file, name := "b", path := "/b" }).2 (Or.inl rfl)

/-- A handle yielded by `values()` carries the listing entry's name, and only
file or directory entries yield one. -/
theorem handleFor_name (dirPath : String) (e : Dirent) (h : FSHandle)
    (heq : handleFor dirPath e = some h) : h.name = e.name ∧ e.typ ≠ .other := by
  cases htyp : e.typ with
  | file =>
      simp [handleFor, htyp] at heq
      exact ⟨by rw [← heq], by simp [htyp]⟩
  | directory =>
      simp [handleFor, htyp] at heq
      exact ⟨by rw [← heq], by simp [htyp]⟩
  | other =>
      simp [handleFor, htyp] at heq

/-- Every file or directory entry yields a handle carrying its name. -/
theorem handleFor_some_of_ne (dirPath : String) (e : Dirent) (hne : e.typ ≠ .other) :
    ∃ h, handleFor dirPath e = some h ∧ h.name = e.name := by
  cases htyp : e.typ with
  | file =>
      exact ⟨{ kind := .file, name := e.name, path := joinPath dirPath e.name },
        by simp [handleFor, htyp], rfl⟩
  | directory =>
      exact ⟨{ kind := .directory, name := e.name, path := joinPath dirPath e.name },
        by simp [handleFor, htyp], rfl⟩
  | other => exact absurd htyp hne

/-- C10: over one point-in-time listing, `keys()` yields every entry's name —
including entries that are neither files nor directories — while `values()`
and `entries()` skip such entries; hence (for a listing with distinct names,
as `fs.readdir` produces) a name yielded by `keys()` can have no counterpart
in `values()` or `entries()`, whereas every file or directory entry has
one. -/
theorem C10_iteration_keys_values (dirPath : String) (listing : List Dirent)
    (hnd : (listing.map (·.name)).Nodup) :
    keysOf listing = listing.map (·.name) ∧
    (∀ e ∈ listing, e.name ∈ keysOf listing) ∧
    (∀ e ∈ listing, e.typ = .other →
        e.name ∉ (valuesOf dirPath listing).map (·.name) ∧
        e.name ∉ (entriesOf dirPath listing).map Prod.fst) ∧
    (∀ e ∈ listing, e.typ ≠ .other →
        e.name ∈ (valuesOf dirPath listing).map (·.name) ∧
        e.name ∈ (entriesOf dirPath listing).map Prod.fst) := by
  refine ⟨rfl, ?_, ?_, ?_⟩
  · intro e he
    exact List.mem_map_of_mem (·.name) he
  · intro e he hother
    constructor
    · intro hmem
      obtain ⟨h, hh, hname⟩ := List.mem_map.mp hmem
      obtain ⟨f, hf, hfh⟩ := List.mem_filterMap.mp hh
      obtain ⟨h1, h2⟩ := handleFor_name dirPath f h hfh
      have hfe : f = e := List.inj_on_of_nodup_map hnd hf he
        (by rw [h1] at hname; exact hname)
      rw [hfe] at h2
      exact h2 hother
    · intro hmem
      obtain ⟨pr, hpr, hname⟩ := List.mem_map.mp hmem
      obtain ⟨f, hf, hfpr⟩ := List.mem_filterMap.mp hpr
      cases hcase : handleFor dirPath f with
      | none => rw [hcase] at hfpr; simp at hfpr
      | some h =>
          rw [hcase] at hfpr
          simp only [Option.map_some', Option.some.injEq] at hfpr
          have hfst : pr.1 = f.name := by rw [← hfpr]
          have hfe : f = e := List.inj_on_of_nodup_map hnd hf he
            (by rw [← hfst]; exact hname)
          have h2 := (handleFor_name dirPath f h hcase).2
          rw [hfe] at h2
          exact h2 hother
  · intro e he hne
    obtain ⟨h, hh, hname⟩ := handleFor_some_of_ne dirPath e hne
    constructor
    · exact List.mem_map.mpr ⟨h, List.mem_filterMap.mpr ⟨e, he, hh⟩, hname⟩
    · exact List.mem_map.mpr
        ⟨(e.name, h), List.mem_filterMap.mpr ⟨e, he, by rw [hh]; rfl⟩, rfl⟩

/-- Witness for C10 at a concrete listing holding a socket-like entry and a
file: the name appears in `keys()` but has no `values()` counterpart. -/
theorem C10_witness :
    "a" ∈ keysOf [⟨"a", .other⟩, ⟨"b", .file⟩] ∧
    "a" ∉ (valuesOf "/d" [⟨"a", .other⟩, ⟨"b", .file⟩]).map (·.name) :=
  ⟨(C10_iteration_keys_values "/d" [⟨"a", .other⟩, ⟨"b", .file⟩]
      (by decide)).2.1 ⟨"a", .other⟩ (by simp),
   ((C10_iteration_keys_values "/d" [⟨"a", .other⟩, ⟨"b", .file⟩]
      (by decide)).2.2.1 ⟨"a", .other⟩ (by simp) rfl).1⟩

/-- Dropping a common leading run when the second segment list extends the
first leaves exactly the extension. -/
theorem dropCommon_self_append (l r : List JStr) : dropCommon l (l ++ r) = ([], r) := by
  induction l with
  | nil => cases r <;> rfl
  | cons a as ih => simpa [dropCommon] using ih

/-- Relative path of a path to itself is empty. -/
theorem pathRelative_self (p : JStr) : pathRelative p p = [] := by
  have h : dropCommon (pathSegs p) (pathSegs p) = ([], []) := by
    have := dropCommon_self_append (pathSegs p) []
    simpa using this
  simp [pathRelative, h, List.intercalate]

/-- Resolving a handle against itself yields the empty segment sequence. -/
theorem resolve_self (p : JStr) : resolve p p = some [] := by
  have hpre : List.isPrefixOf p p = true := by
    rw [ List.isPrefixOf_iff_prefix]
  simp [resolve, hpre, pathRelative_self]

/-- C4 counterexample: the claim is violated by the code.  The sibling path
`/root/abc` is not a descendant of `/root/ab`, but the string-prefix
`startsWith` test passes, so `resolve` returns the `path.relative` segments
`["..", "abc"]` instead of the null result the claim requires. -/
theorem C4_counterexample :
    resolve "/root/ab".toList "/root/abc".toList
        = some ["..".toList, "abc".toList] ∧
    resolve "/root/ab".toList "/root/abc".toList ≠ none := by
  refine ⟨by decide, by decide⟩

/-- C4 amended: `resolve` returns the empty sequence when the candidate's
path equals this handle's path; it returns a null result exactly when the
candidate's path fails the string-prefix `startsWith` test (so a
non-descendant whose path does share a string prefix, such as a sibling, gets
a non-null `path.relative` answer instead of null); and for a candidate whose
path passes the prefix test and whose segments extend this handle's segments
by a non-empty, separator-free suffix — every proper descendant — it returns
that ordered segment suffix. -/
theorem C4_amended_resolve (d c : JStr) :
    (c = d → resolve d c = some []) ∧
    (List.isPrefixOf d c = false → resolve d c = none) ∧
    (∀ rest, List.isPrefixOf d c = true → pathSegs c = pathSegs d ++ rest →
      rest ≠ [] → (∀ s ∈ rest, s ≠ [] ∧ sepChar ∉ s) →
      resolve d c = some rest) := by
  refine ⟨?_, ?_, ?_⟩
  · intro h; rw [h]; exact resolve_self d
  · intro h; simp [resolve, h]
  · intro rest hpre hsegs hne hgood
    have hdrop : dropCommon (pathSegs d) (pathSegs c) = ([], rest) := by
      rw [hsegs]; exact dropCommon_self_append _ _
    have hrel : pathRelative d c = List.intercalate [sepChar] rest := by
      simp [pathRelative, hdrop]
    have hsplit : (List.intercalate [sepChar] rest).splitOn sepChar = rest :=
      List.splitOn_intercalate rest sepChar (fun l hl => (hgood l hl).2) hne
    have hnonempty : List.intercalate [sepChar] rest ≠ [] := by
      intro hempty
      rw [hempty, List.splitOn_nil] at hsplit
      have hmem : ([] : JStr) ∈ rest := by rw [← hsplit]; simp
      exact (hgood [] hmem).1 rfl
    simp [resolve, hpre, hrel, hnonempty, hsplit]

/-- Witness for C4 at a concrete proper descendant two levels down. -/
theorem C4_witness :
    resolve "/root".toList "/root/sub/file.txt".toList
      = some ["sub".toList, "file.txt".toList] :=
  (C4_amended_resolve "/root".toList "/root/sub/file.txt".toList).2.2
    ["sub".toList, "file.txt".toList] (by decide) (by decide) (by decide) (by decide)

/-- Writing at the current end of file appends the buffer. -/
theorem writeAt_at_length (c b : List Nat) : writeAt c c.length b = c ++ b := by
  unfold writeAt
  simp [List.take_length, List.drop_eq_nil_of_le]

/-- A sequence of position-omitted writes starting from a state whose cursor
sits at the end of the file appends the buffers in order and leaves the
cursor at the new end. -/
theorem runWrites_concat (bufs : List (List Nat)) (c : List Nat) :
    runWrites { content := c, position := c.length, closed := false, fdOpen := true } bufs
      = .ok { content := c ++ bufs.flatten, position := (c ++ bufs.flatten).length,
              closed := false, fdOpen := true } := by
  induction bufs generalizing c with
  | nil => simp [runWrites]
  | cons b rest ih =>
      have hw : streamWrite
          { content := c, position := c.length, closed := false, fdOpen := true }
          (.raw b)
          = .ok { content := c ++ b, position := (c ++ b).length,
                  closed := false, fdOpen := true } := by
        simp [streamWrite, ensureOpen, writeAt_at_length]
      rw [runWrites, hw]
      have hih := ih (c ++ b)
      simp only [List.flatten_cons, ← List.append_assoc]
      exact hih

/-- C7: writing a byte sequence through a fresh Writable Stream (default
`keepExistingData` false), closing it and reading the file back yields
exactly that sequence — regardless of the file's prior content — and a
sequence of position-omitted `write(data)` calls on one stream concatenates
the payloads in call order. -/
theorem C7_write_read_roundtrip (priorContent : List Nat) :
    (∀ b : List Nat, writeThenReadBack priorContent [b] = .ok b) ∧
    (∀ bufs : List (List Nat),
      writeThenReadBack priorContent bufs = .ok bufs.flatten) := by
  have key : ∀ bufs : List (List Nat),
      writeThenReadBack priorContent bufs = .ok bufs.flatten := by
    intro bufs
    unfold writeThenReadBack
    have hfresh : freshStream priorContent
        = { content := [], position := List.length ([] : List Nat),
            closed := false, fdOpen := true } := rfl
    rw [hfresh, runWrites_concat bufs []]
    simp [streamClose, getFileBytes]
  exact ⟨fun b => by simpa using key [b], key⟩

/-- Length of the zero-padded intermediate file used by a positional write. -/
theorem padded_length (c : List Nat) (p : Nat) :
    (c ++ List.replicate (p - c.length) 0).length = max c.length p := by
  simp only [List.length_append, List.length_replicate]
  omega

/-- Reading the padded file below the old length sees the old bytes. -/
theorem padded_getElem_of_lt (cont : List Nat) (p i : Nat) (h : i < cont.length) :
    (cont ++ List.replicate (p - cont.length) 0)[i]? = cont[i]? :=
  List.getElem?_append_left h

/-- Reading the padded file at or beyond the write offset agrees with the
old file (the zero padding sits strictly below the offset). -/
theorem padded_getElem_of_ge (cont : List Nat) (p i : Nat) (h : p ≤ i) :
    (cont ++ List.replicate (p - cont.length) 0)[i]? = cont[i]? := by
  by_cases hc : i < cont.length
  · exact padded_getElem_of_lt cont p i hc
  · have h1 : cont[i]? = none := List.getElem?_eq_none_iff.mpr (by omega)
    have h2 : (cont ++ List.replicate (p - cont.length) 0)[i]? = none := by
      apply List.getElem?_eq_none_iff.mpr
      rw [padded_length]
      omega
    rw [h1, h2]

/-- The part taken below the write offset has exactly that length. -/
theorem padded_take_length (cont : List Nat) (p : Nat) :
    ((cont ++ List.replicate (p - cont.length) 0).take p).length = p := by
  rw [List.length_take, padded_length]
  omega

/-- A positional write leaves every old byte below the offset unchanged. -/
theorem writeAt_getElem_frame_left (cont : List Nat) (p : Nat) (b : List Nat) (i : Nat)
    (h1 : i < p) (h2 : i < cont.length) : (writeAt cont p b)[i]? = cont[i]? := by
  unfold writeAt
  rw [List.getElem?_append_left
    (by simp only [List.length_append, padded_take_length]; omega)]
  rw [List.getElem?_append_left (by rw [padded_take_length]; omega)]
  rw [List.getElem?_take_of_lt h1]
  exact padded_getElem_of_lt cont p i h2

/-- A positional write leaves every byte at or beyond the end of the written
range unchanged. -/
theorem writeAt_getElem_frame_right (cont : List Nat) (p : Nat) (b : List Nat) (i : Nat)
    (h : p + b.length ≤ i) : (writeAt cont p b)[i]? = cont[i]? := by
  unfold writeAt
  rw [List.getElem?_append_right
    (by simp only [List.length_append, padded_take_length]; omega)]
  rw [List.getElem?_drop]
  simp only [List.length_append, padded_take_length]
  have harith : p + b.length + (i - (p + b.length)) = i := by omega
  rw [harith]
  exact padded_getElem_of_ge cont p i (by omega)

/-- A positional write places the buffer at the offset. -/
theorem writeAt_getElem_mid (cont : List Nat) (p : Nat) (b : List Nat) (i : Nat)
    (h : i < b.length) : (writeAt cont p b)[p + i]? = b[i]? := by
  unfold writeAt
  rw [List.getElem?_append_left
    (by simp only [List.length_append, padded_take_length]; omega)]
  rw [List.getElem?_append_right (by rw [padded_take_length]; omega)]
  rw [padded_take_length]
  have harith : p + i - p = i := by omega
  rw [harith]

/-- Length after a positional write: the file grows exactly as far as the
written range requires. -/
theorem writeAt_length (cont : List Nat) (p : Nat) (b : List Nat) :
    (writeAt cont p b).length = max cont.length (p + b.length) := by
  unfold writeAt
  simp only [List.length_append, List.length_take, List.length_drop,
    List.length_replicate]
  omega

/-- C8: on an open stream, `write({type:'write', position: p, data: d})`
overwrites exactly the byte range `[p, p + len d)`: every previously existing
byte outside that range keeps its value, the range holds `d`, the file length
grows only as far as the range requires, and the stream's implicit cursor
(and its flags) are unchanged. -/
theorem C8_positional_write_frame (s : WStream) (p : Nat) (d : List Nat)
    (hclosed : s.closed = false) (hfd : s.fdOpen = true) :
    ∃ s', streamWrite s (.writeTag (some p) d) = .ok s' ∧
      s'.position = s.position ∧
      s'.closed = s.closed ∧
      s'.fdOpen = s.fdOpen ∧
      s'.content.length = max s.content.length (p + d.length) ∧
      (∀ i, i < p → i < s.content.length → s'.content[i]? = s.content[i]?) ∧
      (∀ i, p + d.length ≤ i → s'.content[i]? = s.content[i]?) ∧
      (∀ i, i < d.length → s'.content[p + i]? = d[i]?) := by
  refine ⟨{ s with content := writeAt s.content p d }, ?_, rfl, rfl, rfl, ?_, ?_, ?_, ?_⟩
  · simp [streamWrite, ensureOpen, hclosed, hfd]
  · exact writeAt_length s.content p d
  · intro i h1 h2
    exact writeAt_getElem_frame_left s.content p d i h1 h2
  · intro i h
    exact writeAt_getElem_frame_right s.content p d i h
  · intro i h
    exact writeAt_getElem_mid s.content p d i h

/-- Witness for C8 at a concrete open stream: writing `[7, 8]` at offset 3
into a six-byte file moves no cursor and only touches bytes 3 and 4. -/
theorem C8_witness :
    ∃ s', streamWrite
        { content := [0, 0, 0, 0, 0, 0], position := 2, closed := false, fdOpen := true }
        (.writeTag (some 3) [7, 8]) = .ok s' ∧
      s'.position = 2 ∧
      s'.closed = false ∧
      s'.fdOpen = true ∧
      s'.content.length = max 6 5 ∧
      (∀ i, i < 3 → i < 6 → s'.content[i]? = [0, 0, 0, 0, 0, 0][i]?) ∧
      (∀ i, 5 ≤ i → s'.content[i]? = [0, 0, 0, 0, 0, 0][i]?) ∧
      (∀ i, i < 2 → s'.content[3 + i]? = [7, 8][i]?) :=
  C8_positional_write_frame
    { content := [0, 0, 0, 0, 0, 0], position := 2, closed := false, fdOpen := true }
    3 [7, 8] rfl rfl

end NodeOpfs
